import Mathlib

/-
Verification development for the persist middleware of a minimal observable
state container (zustand-style).  The definitions below are a shallow
embedding of `src/middleware/persist.ts` (the mutator-chain variant) and of
the context-store variant found in the second source file.  Stateful code is
embedded as explicit world passing; a JavaScript synchronous `throw` is an
`Except.error`; the Thenable Adapter is embedded for the synchronous-backend
case, where a thenable is always settled (ok value or captured rejection).
-/

deriving instance DecidableEq for Except

namespace PersistMW

/-- Console diagnostics emitted by the middleware, mirroring the `messages`
record of the source (`console.warn` / `console.error` payloads). -/
inductive Diag where
  | warnNoPersistentStorage (name : String)
  | errCouldNotMigrate
  deriving DecidableEq, Repr

/-- The persisted Envelope, `PersistentStorageValue` in the source:
`{ state, version? }`; `version` is optional (legacy records lack it). -/
structure PersistentStorageValue (π : Type) where
  state : π
  version : Option Int
  deriving DecidableEq, Repr

/-- The runtime value produced by the version-resolution stage of `hydrate`:
JavaScript `null` (storage was empty), `undefined` (version mismatch with no
migrator), or an actual persisted/migrated state. -/
inductive StageVal (π : Type) where
  | jnull
  | jundef
  | jstate (s : π)
  deriving DecidableEq, Repr

/-- The options record after defaulting (`{ ...defaultOptions, ..._options }`).
`serialize`, `deserialize` and `migrate` may throw (JS exceptions are
`Except.error`).  `onRehydrateStorage` is `true` exactly when the hook is
configured and returns a post-rehydration callback (the source computes
`options.onRehydrateStorage?.(parentGet()) || undefined`); callback
invocations are recorded in the world rather than run, since the callback is
arbitrary caller code.  `getStorage` is resolved separately at construction
(see `resolvePersistentStorage`) and by `setOptions`, so it is not a field
here. -/
structure POptions (σ π ser ε : Type) where
  name : String
  serialize : PersistentStorageValue π → Except ε ser
  deserialize : ser → Except ε (PersistentStorageValue π)
  partialize : σ → π
  onRehydrateStorage : Bool
  version : Int
  migrate : Option (π → Int → Except ε π)
  merge : StageVal π → σ → σ

/-- A synchronous storage handle for the configured `name`: `getItem` and
`setItem` act on the contents stored under that name (`Option ser`, `none`
when the key is absent) and may throw. -/
structure Backend (ser ε : Type) where
  getItem : Option ser → Except ε (Option ser)
  setItem : ser → Option ser → Except ε (Option ser)

/-- The observable world threaded through the middleware:
* `memState` — the parent store's in-memory state (owned by the Store
  Engine; updates to it model `parentSet`),
* `storage` — the value stored under the configured name,
* `hasHydrated` — the hydration flag, with `hhTrace` an observation trace
  recording every assignment to it (ghost state used to state claims about
  its transitions),
* `isfps` — the `initialStateFromPersistentStorage` variable,
* `log` — console diagnostics, in emission order,
* `preEmits` / `postEmits` — arguments of `hydrationEmitter.emit` and
  `finishHydrationEmitter.emit` (the latter records the raw
  `initialStateFromPersistentStorage` variable, hence `Option σ`),
* `cbCalls` — arguments of invocations of the post-rehydration callback. -/
structure PWorld (σ ser ε : Type) where
  memState : σ
  storage : Option ser
  hasHydrated : Bool
  hhTrace : List Bool
  isfps : Option σ
  log : List Diag
  preEmits : List σ
  postEmits : List (Option σ)
  cbCalls : List (Option σ × Option ε)
  deriving DecidableEq, Repr

/-- An effectful synchronous computation: runs on a world, produces the new
world and either a value or a thrown exception. -/
abbrev Eff (W ε α : Type) := W → W × Except ε α

/-- A settled thenable in the synchronous model: the underlying value is
realized (never promise-like), so the thenable is an ok value or a captured
rejection.  Corresponds to the two object shapes built by `thenablify` in
the source. -/
inductive Thenable (ε α : Type) where
  | ok (v : α)
  | rejected (e : ε)
  deriving DecidableEq, Repr

/-- The result of invoking a thenablified function: a new world together with
either a synchronously thrown exception (throw-immediately mode) or the
returned thenable. -/
abbrev TRes (W ε α : Type) := W × Except ε (Thenable ε α)

/-- `thenablify(f, throwImmediately)` from the source, applied: run `f`; on a
normal result wrap it in an ok thenable; if `f` throws, rethrow when
`throwImmediately` is set, otherwise capture the error in a rejected
thenable.  Handlers that themselves return a thenable (the `hasThen` branch
of the source) are embedded as `Eff` computations whose `Except.error`
covers both a synchronous throw and a rejected returned thenable; for
synchronous backends these coincide. -/
def thenablify (throwImmediately : Bool) (f : Eff W ε α) : W → TRes W ε α :=
  fun w =>
    match f w with
    | (w', Except.ok v) => (w', Except.ok (Thenable.ok v))
    | (w', Except.error e) =>
        (w', if throwImmediately then Except.error e
             else Except.ok (Thenable.rejected e))

/-- `Thenable.then`: on an ok thenable, `then(f) { return thenablify(f,
throwImmediately)(r) }` — the handler runs synchronously on the realized
value; on a rejected thenable, `then() { return this }` — the handler is
skipped and the rejection flows on. -/
def Thenable.thenT (mode : Bool) (t : Thenable ε α) (f : α → Eff W ε β) :
    W → TRes W ε β :=
  fun w =>
    match t with
    | Thenable.ok v => thenablify mode (f v) w
    | Thenable.rejected e => (w, Except.ok (Thenable.rejected e))

/-- `Thenable.catch`: on an ok thenable, `catch() { return this }` — a no-op
pass-through; on a rejected thenable, the handler runs on the captured
error via `thenablify`. -/
def Thenable.catchT (mode : Bool) (t : Thenable ε α) (f : ε → Eff W ε α) :
    W → TRes W ε α :=
  fun w =>
    match t with
    | Thenable.ok v => (w, Except.ok (Thenable.ok v))
    | Thenable.rejected e => thenablify mode (f e) w

/-- Chaining `.then` onto the result of a thenablified call: if the call
already threw synchronously the exception keeps propagating and the handler
is unreachable; otherwise `then` runs on the returned thenable. -/
def TRes.thenR (mode : Bool) (r : TRes W ε α) (f : α → Eff W ε β) :
    TRes W ε β :=
  match r with
  | (w, Except.error e) => (w, Except.error e)
  | (w, Except.ok t) => Thenable.thenT mode t f w

/-- Chaining `.catch` onto the result of a thenablified call. -/
def TRes.catchR (mode : Bool) (r : TRes W ε α) (f : ε → Eff W ε α) :
    TRes W ε α :=
  match r with
  | (w, Except.error e) => (w, Except.error e)
  | (w, Except.ok t) => Thenable.catchT mode t f w

/-- View a thenablified call used as a plain effect (the way `hydrate` uses
`return updatePersistentStorage()` inside a handler): a synchronous throw or
a rejected result both surface as the effect throwing. -/
def TRes.settle : TRes W ε α → W × Except ε α :=
  fun r =>
    match r with
    | (w, Except.error e) => (w, Except.error e)
    | (w, Except.ok (Thenable.ok v)) => (w, Except.ok v)
    | (w, Except.ok (Thenable.rejected e)) => (w, Except.error e)

/-- `tryElse` from the source utilities: run `result`, fall back on a thrown
exception. -/
def tryElse (result : Except ε α) (fallback : ε → α) : α :=
  match result with
  | Except.ok r => r
  | Except.error e => fallback e

/-- `tryElse(options.getStorage, () => undefined)` at construction: the
storage-provider call either throws (`Except.error`), returns no handle
(`Except.ok none`), or returns a handle. -/
def resolvePersistentStorage (getStorage : Except ε (Option H)) : Option H :=
  tryElse getStorage (fun _ => none)

/-- Serialization step of `updatePersistentStorage`:
`options.serialize({ state: options.partialize({ ...parentGet() }), version:
options.version })`.  The `{ ...parentGet() }` spread copy is the identity
on values. -/
def serializeStep (o : POptions σ π ser ε) : Eff (PWorld σ ser ε) ε ser :=
  fun w =>
    (w, o.serialize { state := o.partialize w.memState
                    , version := some o.version })

/-- `persistentStorageSetItem`: write the serialized envelope under the
configured name; may throw. -/
def setItemStep (B : Backend ser ε) : ser → Eff (PWorld σ ser ε) ε Unit :=
  fun s w =>
    match B.setItem s w.storage with
    | Except.ok c => ({ w with storage := c }, Except.ok ())
    | Except.error e => (w, Except.error e)

/-- `updatePersistentStorage` from the source:
`thenablify(options.serialize, true)({...}).then(persistentStorageSetItem)` —
the Thenable Adapter in throw-immediately mode, which the chained `then`
inherits, so a serialization or storage-write failure is rethrown
synchronously rather than captured. -/
def updatePersistentStorage (B : Backend ser ε) (o : POptions σ π ser ε)
    (w : PWorld σ ser ε) : TRes (PWorld σ ser ε) ε Unit :=
  TRes.thenR true (thenablify true (serializeStep o) w) (setItemStep B)

/-- The wrapped `set` installed by the middleware (both the initializer's
`set` and the store handle's `setState` wrapper):
`(...a) => { parentSet(...a); updatePersistentStorage() }`.  `parentSet` is
the Store Engine's set.  Modelled from the spec: the vanilla store is not
among the sources, and per the spec the engine replaces the current state
with the update's result and never suspends; the update is abstracted as a
total function on states. -/
def wrappedSetState (B : Backend ser ε) (o : POptions σ π ser ε)
    (upd : σ → σ) (w : PWorld σ ser ε) : PWorld σ ser ε × Except ε Unit :=
  TRes.settle (updatePersistentStorage B o { w with memState := upd w.memState })

/-- The wrapped `set` in the degenerate (storage-unavailable) mode:
`(...a) => { console.warn(messages.noPersistentStorage(options.name));
parentSet(...a) }`.  Total by construction: no exception can leave it. -/
def noopWrappedSetState (o : POptions σ π ser ε) (upd : σ → σ)
    (w : PWorld σ ser ε) : PWorld σ ser ε :=
  { w with log := w.log ++ [Diag.warnNoPersistentStorage o.name]
         , memState := upd w.memState }

/-- Stage 2 of `hydrate`: `thenablify(persistentStorageGetItem)()`. -/
def getItemStep (B : Backend ser ε) : Eff (PWorld σ ser ε) ε (Option ser) :=
  fun w => (w, B.getItem w.storage)

/-- Stage 3: `serialized => serialized !== null ? options.deserialize(serialized)
: null`. -/
def deserializeStep (o : POptions σ π ser ε) :
    Option ser → Eff (PWorld σ ser ε) ε (Option (PersistentStorageValue π)) :=
  fun s? w =>
    (w, match s? with
        | some s => Except.map some (o.deserialize s)
        | none => Except.ok none)

/-- Stage 4, version resolution, verbatim from the source:
null propagates; an unversioned envelope or one whose version strictly
equals the target supplies its state unchanged; otherwise without a
`migrate` function a `console.error` diagnostic is emitted and the result is
`undefined`; otherwise `migrate(storageValue.state, storageValue.version)`
runs (it may throw). -/
def versionResolveStep (o : POptions σ π ser ε) :
    Option (PersistentStorageValue π) → Eff (PWorld σ ser ε) ε (StageVal π) :=
  fun sv? w =>
    match sv? with
    | none => (w, Except.ok StageVal.jnull)
    | some sv =>
        match sv.version with
        | none => (w, Except.ok (StageVal.jstate sv.state))
        | some v =>
            if v = o.version then (w, Except.ok (StageVal.jstate sv.state))
            else
              match o.migrate with
              | none =>
                  ({ w with log := w.log ++ [Diag.errCouldNotMigrate] }
                  , Except.ok StageVal.jundef)
              | some m => (w, Except.map StageVal.jstate (m sv.state v))

/-- Stage 5a: `initialStateFromPersistentStorage = options.merge(migratedState!,
initialState); parentSet(initialStateFromPersistentStorage, true); return
updatePersistentStorage()`.  Note the merge's second argument is the
captured `initialState`, not the current state. -/
def mergeApplyStep (B : Backend ser ε) (o : POptions σ π ser ε)
    (initialState : σ) : StageVal π → Eff (PWorld σ ser ε) ε Unit :=
  fun st w =>
    TRes.settle (updatePersistentStorage B o
      { w with isfps := some (o.merge st initialState)
             , memState := o.merge st initialState })

/-- Record an invocation of the post-rehydration callback with
`(initialStateFromPersistentStorage, undefined)`, when one was captured. -/
def recordCbSuccess (o : POptions σ π ser ε) (w : PWorld σ ser ε) :
    PWorld σ ser ε :=
  if o.onRehydrateStorage
  then { w with cbCalls := w.cbCalls ++ [(w.isfps, none)] }
  else w

/-- `hasHydrated = true; finishHydrationEmitter.emit(initialStateFromPersistentStorage!)`. -/
def emitFinish (w : PWorld σ ser ε) : PWorld σ ser ε :=
  { w with hasHydrated := true
         , hhTrace := w.hhTrace ++ [true]
         , postEmits := w.postEmits ++ [w.isfps] }

/-- Stage 5b of `hydrate`: invoke the captured callback with the merged state
and no error, then set the flag and emit the post-hydration listeners. -/
def finalizeStep (o : POptions σ π ser ε) :
    Unit → Eff (PWorld σ ser ε) ε Unit :=
  fun _ w => (emitFinish (recordCbSuccess o w), Except.ok ())

/-- The final `.catch(error => postRehydrationCallback?.(undefined, error))`. -/
def catchStep (o : POptions σ π ser ε) : ε → Eff (PWorld σ ser ε) ε Unit :=
  fun e w =>
    ( (if o.onRehydrateStorage
       then { w with cbCalls := w.cbCalls ++ [(none, some e)] }
       else w)
    , Except.ok ())

/-- Stage 1 of `hydrate`: `hasHydrated = false;
hydrationEmitter.emit(parentGet()); options.onRehydrateStorage?.(parentGet())`
(the captured callback is `o.onRehydrateStorage`). -/
def hydratePrologue (w : PWorld σ ser ε) : PWorld σ ser ε :=
  { w with hasHydrated := false
         , hhTrace := w.hhTrace ++ [false]
         , preEmits := w.preEmits ++ [w.memState] }

/-- The full `hydrate` pipeline from the source, chained via the Thenable
Adapter (default mode; the thenable returned by `updatePersistentStorage`
inside stage 5a carries throw-immediately mode, which is observationally
irrelevant here because stages 5b and the catch handler are total in this
model). -/
def hydrate (B : Backend ser ε) (o : POptions σ π ser ε) (initialState : σ)
    (w : PWorld σ ser ε) : TRes (PWorld σ ser ε) ε Unit :=
  TRes.catchR false
    (TRes.thenR false
      (TRes.thenR false
        (TRes.thenR false
          (TRes.thenR false
            (thenablify false (getItemStep B) (hydratePrologue w))
            (deserializeStep o))
          (versionResolveStep o))
        (mergeApplyStep B o initialState))
      (finalizeStep o))
    (catchStep o)

/-- The suffix of the `hydrate` chain from stage 5a on (merge, whole-state
replace, storage normalization, finalization, catch), starting from the
world `W1` reached after version resolution produced `st`. -/
def hydrateTail (B : Backend ser ε) (o : POptions σ π ser ε) (init : σ)
    (st : StageVal π) (W1 : PWorld σ ser ε) : TRes (PWorld σ ser ε) ε Unit :=
  TRes.catchR false
    (TRes.thenR false
      (TRes.thenR false
        ((W1, Except.ok (Thenable.ok st)) : TRes (PWorld σ ser ε) ε (StageVal π))
        (mergeApplyStep B o init))
      (finalizeStep o))
    (catchStep o)

/-- A JavaScript record with integer fields, used for concrete states:
an ordered list of key-value pairs with unique keys by convention. -/
abbrev Obj := List (String × Int)

/-- Property read `t[k]`: the first binding of `k`, or `undefined`. -/
def objGet {V : Type} : List (String × V) → String → Option V
  | [], _ => none
  | (k', v) :: t, k => if k = k' then some v else objGet t k

/-- Property write semantics used by `Object.assign` and spread: replace the
binding of `k` in place if present, otherwise append it. -/
def setKey {V : Type} (t : List (String × V)) (k : String) (v : V) :
    List (String × V) :=
  match t with
  | [] => [(k, v)]
  | (k', v') :: rest =>
      if k = k' then (k', v) :: rest else (k', v') :: setKey rest k v

/-- Object spread `{ ...c, ...s }`: fields of `s` overwrite same-named
fields of `c`, other fields of `c` survive. -/
def spread (c s : Obj) : Obj :=
  s.foldl (fun acc p => setKey acc p.1 p.2) c

/-- The default `merge` option:
`(persistedState, currentState) => ({ ...currentState, ...persistedState })`;
spreading `null` or `undefined` contributes no fields. -/
def defaultMerge : StageVal Obj → Obj → Obj :=
  fun p c =>
    spread c (match p with
              | StageVal.jstate s => s
              | _ => [])

/-- Concrete serialized form used in scenario instantiations: the envelope
itself (the spec leaves the encoding pluggable; the default `JSON.stringify`
round-trips envelopes, which the identity coding captures at the value
level). -/
abbrev EnvObj := PersistentStorageValue Obj

/-- A storage handle that never throws: reads return the contents, writes
replace them (the `localStorage` behaviour for one key). -/
def syncBackend : Backend EnvObj String :=
  { getItem := fun c => Except.ok c
  , setItem := fun s _ => Except.ok (some s) }

/-- Concrete defaulted options: default serializer/deserializer (identity
coding of envelopes), default `partialize` (identity), `version: 0`, no
`migrate`, default shallow-overlay `merge`, no rehydration hook. -/
def baseOptions : POptions Obj Obj EnvObj String :=
  { name := "storage"
  , serialize := fun v => Except.ok v
  , deserialize := fun s => Except.ok s
  , partialize := fun s => s
  , onRehydrateStorage := false
  , version := 0
  , migrate := none
  , merge := defaultMerge }

/-- A fresh world holding state `s` with storage contents `c`. -/
def mkWorld (s : Obj) (c : Option EnvObj) : PWorld Obj EnvObj String :=
  { memState := s
  , storage := c
  , hasHydrated := false
  , hhTrace := []
  , isfps := none
  , log := []
  , preEmits := []
  , postEmits := []
  , cbCalls := [] }

/-- The slice of the options record that `setOptions` manipulates: the
storage-provider function (a provider is identified by the handle it
returns) and a representative data field (`version`). -/
structure StorageOpts where
  getStorage : Option Nat
  version : Int
  deriving DecidableEq, Repr

/-- A `setOptions` argument: per-field, `none` means the key is absent from
`newOptions`; `some none` for `getStorage` models an explicitly `undefined`
provider (spread lets an explicit `undefined` overwrite). -/
structure OptsPatch where
  getStorage : Option (Option Nat)
  version : Option Int
  deriving DecidableEq, Repr

/-- The world observed by storage-handle resolution: how often a provider
has been invoked, and the current handle. -/
structure ResolveWorld where
  providerCalls : Nat
  handle : Option Nat
  deriving DecidableEq, Repr

/-- `setOptions` from the source:
`options = { ...options, ...newOptions }; if (options.getStorage)
persistentStorage = options.getStorage()` — the guard tests the merged
options' provider, and a provider invocation bumps `providerCalls`. -/
def setOptions (opts : StorageOpts) (patch : OptsPatch) (w : ResolveWorld) :
    StorageOpts × ResolveWorld :=
  match ({ getStorage := patch.getStorage.getD opts.getStorage
         , version := patch.version.getD opts.version } : StorageOpts) with
  | merged =>
      match merged.getStorage with
      | some p =>
          (merged, { providerCalls := w.providerCalls + 1, handle := some p })
      | none => (merged, w)

namespace CtxVariant

/-- The `update` utility of the context-store variant:
`Object.assign(t, { k: replacer(original) })` — the replaced value is stored
under the literal property name `k`.  JS property reads may yield
`undefined`, hence the replacer takes an `Option`. -/
def update {V : Type} (t : List (String × V)) (k : String)
    (replacer : Option V → V) : List (String × V) :=
  setKey t "k" (replacer (objGet t k))

end CtxVariant

namespace MutatorVariant

/-- The `update` utility of the mutator-chain variant:
`Object.assign(t, { [k]: replacer(original) })` — the replaced value is
stored under the computed key `k` itself. -/
def update {V : Type} (t : List (String × V)) (k : String)
    (replacer : Option V → V) : List (String × V) :=
  setKey t k (replacer (objGet t k))

end MutatorVariant

/-- A store-handle method: a state update applied through `setState`. -/
abbrev SetFn := (Obj → Obj) → PWorld Obj EnvObj String →
  PWorld Obj EnvObj String × Except String Unit

/-- The parent store's own `setState`, before the middleware touches it.
Modelled from the spec: the vanilla Store Engine is not among the sources;
per the spec it replaces the in-memory state and never touches storage. -/
def plainSetState : SetFn :=
  fun upd w => ({ w with memState := upd w.memState }, Except.ok ())

/-- The replacer the middleware passes to `update`:
`setState => (...a) => { setState(...a); updatePersistentStorage() }`
(invoking an `undefined` method is a thrown TypeError). -/
def persistWrap (B : Backend EnvObj String) (o : POptions Obj Obj EnvObj String) :
    Option SetFn → SetFn :=
  fun orig upd w =>
    match orig with
    | none => (w, Except.error "TypeError: setState is not a function")
    | some setState =>
        match setState upd w with
        | (w', Except.ok _) => TRes.settle (updatePersistentStorage B o w')
        | (w', Except.error e) => (w', Except.error e)

/-- The parent store handle as passed to `update`, holding its `setState`. -/
def parentStoreObj : List (String × SetFn) := [("setState", plainSetState)]

/-- The `set` actually installed by `persistImpl`, following the
`if (!persistentStorage)` branch at construction: with no resolved handle
the degenerate warn-and-continue set (which cannot throw), otherwise the
persisting wrapper. -/
def installedSetState (resolved : Option (Backend ser ε))
    (o : POptions σ π ser ε) (upd : σ → σ) (w : PWorld σ ser ε) :
    PWorld σ ser ε × Except ε Unit :=
  match resolved with
  | none => (noopWrappedSetState o upd w, Except.ok ())
  | some B => wrappedSetState B o upd w

/-- Options with an `onRehydrateStorage` hook that returns a callback. -/
def cbOptions : POptions Obj Obj EnvObj String :=
  { baseOptions with onRehydrateStorage := true }

/-- Options whose deserializer throws on any input. -/
def badDeserializeOptions : POptions Obj Obj EnvObj String :=
  { baseOptions with deserialize := fun _ => Except.error "bad json" }

/-- A world whose in-memory state has drifted away from the configured
initial state, with a version-1 envelope in storage. -/
def driftWorld : PWorld Obj EnvObj String :=
  mkWorld [("count", 5)] (some { state := [("count", 5)], version := some 1 })

/-- A world mid-session (`hasHydrated` already true) holding a valid
envelope, used to observe a failing re-hydration pass. -/
def midSessionWorld : PWorld Obj EnvObj String :=
  { mkWorld [("count", 5)] (some { state := [("count", 5)], version := some 0 })
      with hasHydrated := true }

/-- Options slice with the default provider configured (identified as
handle 7). -/
def presentProviderOpts : StorageOpts := { getStorage := some 7, version := 0 }

/-- A `setOptions` argument that supplies no `getStorage` at all, only a new
`version`. -/
def versionOnlyPatch : OptsPatch := { getStorage := none, version := some 5 }

/-- Resolution state before the `setOptions` call: the provider ran once at
construction. -/
def constructionResolveWorld : ResolveWorld := { providerCalls := 1, handle := some 7 }

/-- A `setOptions` argument that supplies a new provider (handle 9). -/
def providerPatch : OptsPatch := { getStorage := some (some 9), version := none }

theorem thenablify_res_ok {W ε α : Type} {m : Bool} {f : Eff W ε α} {w w' : W}
    {v : α} (h : f w = (w', Except.ok v)) :
    thenablify m f w = (w', Except.ok (Thenable.ok v)) := by
  simp [thenablify, h]

theorem thenablify_res_err_false {W ε α : Type} {f : Eff W ε α} {w w' : W}
    {e : ε} (h : f w = (w', Except.error e)) :
    thenablify false f w = (w', Except.ok (Thenable.rejected e)) := by
  simp [thenablify, h]

theorem thenablify_res_err_true {W ε α : Type} {f : Eff W ε α} {w w' : W}
    {e : ε} (h : f w = (w', Except.error e)) :
    thenablify true f w = (w', Except.error e) := by
  simp [thenablify, h]

theorem thenR_ok {W ε α β : Type} (m : Bool) (w : W) (v : α)
    (g : α → Eff W ε β) :
    TRes.thenR m ((w, Except.ok (Thenable.ok v)) : TRes W ε α) g
      = thenablify m (g v) w := rfl

theorem thenR_rej {W ε α β : Type} (m : Bool) (w : W) (e : ε)
    (g : α → Eff W ε β) :
    TRes.thenR m ((w, Except.ok (Thenable.rejected e)) : TRes W ε α) g
      = (w, Except.ok (Thenable.rejected e)) := rfl

theorem thenR_thrown {W ε α β : Type} (m : Bool) (w : W) (e : ε)
    (g : α → Eff W ε β) :
    TRes.thenR m ((w, Except.error e) : TRes W ε α) g = (w, Except.error e) := rfl

theorem catchR_ok {W ε α : Type} (m : Bool) (w : W) (v : α)
    (h : ε → Eff W ε α) :
    TRes.catchR m ((w, Except.ok (Thenable.ok v)) : TRes W ε α) h
      = (w, Except.ok (Thenable.ok v)) := rfl

theorem catchR_rej {W ε α : Type} (m : Bool) (w : W) (e : ε)
    (h : ε → Eff W ε α) :
    TRes.catchR m ((w, Except.ok (Thenable.rejected e)) : TRes W ε α) h
      = thenablify m (h e) w := rfl

theorem objGet_setKey_same {V : Type} (t : List (String × V)) (k : String)
    (v : V) : objGet (setKey t k v) k = some v := by
  induction t with
  | nil => simp [setKey, objGet]
  | cons p rest ih =>
    obtain ⟨k', v'⟩ := p
    by_cases h : k = k' <;> simp [setKey, objGet, h, ih]

theorem objGet_setKey_other {V : Type} (t : List (String × V)) (k k' : String)
    (v : V) (h : k' ≠ k) :
    objGet (setKey t k v) k' = objGet t k' := by
  induction t with
  | nil => simp [setKey, objGet, h]
  | cons p rest ih =>
    obtain ⟨a, b⟩ := p
    by_cases hk : k = a
    · subst hk
      simp [setKey, objGet, h]
    · by_cases hk' : k' = a <;> simp [setKey, objGet, hk, hk', ih]

theorem hydrate_factor {σ π ser ε : Type} {B : Backend ser ε}
    {o : POptions σ π ser ε} {init : σ} {w : PWorld σ ser ε}
    {st : StageVal π} {W1 : PWorld σ ser ε}
    (h : TRes.thenR false (TRes.thenR false
          (thenablify false (getItemStep B) (hydratePrologue w))
          (deserializeStep o)) (versionResolveStep o)
        = (W1, Except.ok (Thenable.ok st))) :
    hydrate B o init w = hydrateTail B o init st W1 := by
  unfold hydrate hydrateTail
  rw [h]

theorem hydrate_factor_rej {σ π ser ε : Type} {B : Backend ser ε}
    {o : POptions σ π ser ε} {init : σ} {w : PWorld σ ser ε}
    {e : ε} {W1 : PWorld σ ser ε}
    (h : TRes.thenR false (TRes.thenR false
          (thenablify false (getItemStep B) (hydratePrologue w))
          (deserializeStep o)) (versionResolveStep o)
        = (W1, Except.ok (Thenable.rejected e))) :
    hydrate B o init w
      = ((if o.onRehydrateStorage
          then { W1 with cbCalls := W1.cbCalls ++ [(none, some e)] }
          else W1), Except.ok (Thenable.ok ())) := by
  unfold hydrate
  rw [h, thenR_rej, thenR_rej, catchR_rej]
  simp [thenablify, catchStep]


/-- Behaviour of the pipeline suffix from stage 5a on, relative to the world
`W1` reached after version resolution produced `st`. -/
theorem hydrateTail_spec {σ π ser ε : Type} (B : Backend ser ε)
    (o : POptions σ π ser ε) (init : σ) (st : StageVal π)
    (W1 : PWorld σ ser ε) :
    ∃ fin : PWorld σ ser ε,
      hydrateTail B o init st W1 = (fin, Except.ok (Thenable.ok ()))
      ∧ fin.memState = o.merge st init
      ∧ fin.isfps = some (o.merge st init)
      ∧ fin.log = W1.log
      ∧ fin.preEmits = W1.preEmits
      ∧ ((fin.hasHydrated = true
          ∧ fin.hhTrace = W1.hhTrace ++ [true]
          ∧ fin.cbCalls = W1.cbCalls
              ++ (if o.onRehydrateStorage
                  then [(some (o.merge st init), none)] else [])
          ∧ fin.postEmits = W1.postEmits ++ [some (o.merge st init)])
        ∨ (∃ e : ε, fin.hasHydrated = W1.hasHydrated
          ∧ fin.hhTrace = W1.hhTrace
          ∧ fin.cbCalls = W1.cbCalls
              ++ (if o.onRehydrateStorage then [(none, some e)] else [])
          ∧ fin.postEmits = W1.postEmits)) := by
  rcases hser : o.serialize { state := o.partialize (o.merge st init)
                            , version := some o.version } with e | s
  · -- serialization throws inside the merge/apply handler
    have hm : mergeApplyStep B o init st W1
        = ({ W1 with isfps := some (o.merge st init)
                   , memState := o.merge st init }, Except.error e) := by
      simp [mergeApplyStep, updatePersistentStorage, serializeStep,
        thenablify, TRes.thenR, TRes.settle, hser]
    have hrun : hydrateTail B o init st W1
        = ((if o.onRehydrateStorage
            then { ({ W1 with isfps := some (o.merge st init)
                            , memState := o.merge st init })
                    with cbCalls := W1.cbCalls ++ [(none, some e)] }
            else { W1 with isfps := some (o.merge st init)
                         , memState := o.merge st init })
          , Except.ok (Thenable.ok ())) := by
      unfold hydrateTail
      rw [thenR_ok, thenablify_res_err_false hm, thenR_rej, catchR_rej]
      simp [thenablify, catchStep]
    refine ⟨_, hrun, ?_, ?_, ?_, ?_, Or.inr ⟨e, ?_, ?_, ?_, ?_⟩⟩ <;>
      by_cases hcb : o.onRehydrateStorage <;> simp [hcb]
  · rcases hset : B.setItem s W1.storage with e | c
    · -- the storage write throws inside the merge/apply handler
      have hm : mergeApplyStep B o init st W1
          = ({ W1 with isfps := some (o.merge st init)
                     , memState := o.merge st init }, Except.error e) := by
        simp [mergeApplyStep, updatePersistentStorage, serializeStep,
          setItemStep, thenablify, TRes.thenR, Thenable.thenT, TRes.settle,
          hser, hset]
      have hrun : hydrateTail B o init st W1
          = ((if o.onRehydrateStorage
              then { ({ W1 with isfps := some (o.merge st init)
                              , memState := o.merge st init })
                      with cbCalls := W1.cbCalls ++ [(none, some e)] }
              else { W1 with isfps := some (o.merge st init)
                           , memState := o.merge st init })
            , Except.ok (Thenable.ok ())) := by
        unfold hydrateTail
        rw [thenR_ok, thenablify_res_err_false hm, thenR_rej, catchR_rej]
        simp [thenablify, catchStep]
      refine ⟨_, hrun, ?_, ?_, ?_, ?_, Or.inr ⟨e, ?_, ?_, ?_, ?_⟩⟩ <;>
        by_cases hcb : o.onRehydrateStorage <;> simp [hcb]
    · -- merge, whole-state replace and storage normalization all succeed
      have hm : mergeApplyStep B o init st W1
          = ({ W1 with isfps := some (o.merge st init)
                     , memState := o.merge st init
                     , storage := c }, Except.ok ()) := by
        simp [mergeApplyStep, updatePersistentStorage, serializeStep,
          setItemStep, thenablify, TRes.thenR, Thenable.thenT, TRes.settle,
          hser, hset]
      have hrun : hydrateTail B o init st W1
          = (emitFinish (recordCbSuccess o
              { W1 with isfps := some (o.merge st init)
                      , memState := o.merge st init
                      , storage := c })
            , Except.ok (Thenable.ok ())) := by
        unfold hydrateTail
        rw [thenR_ok, thenablify_res_ok hm, thenR_ok,
          thenablify_res_ok (show finalizeStep o ()
            { W1 with isfps := some (o.merge st init)
                    , memState := o.merge st init
                    , storage := c }
            = (emitFinish (recordCbSuccess o
                { W1 with isfps := some (o.merge st init)
                        , memState := o.merge st init
                        , storage := c }), Except.ok ()) from rfl),
          catchR_ok]
      refine ⟨_, hrun, ?_, ?_, ?_, ?_, Or.inl ⟨?_, ?_, ?_, ?_⟩⟩ <;>
        by_cases hcb : o.onRehydrateStorage <;>
          simp [emitFinish, recordCbSuccess, hcb]

/-- Outcome of `hydrate` once its head chain (stages 2-4) has computed to a
stage value `st` in world `W1` whose bookkeeping fields match the prologue. -/
theorem hydrate_outcome_aux {σ π ser ε : Type} {B : Backend ser ε}
    {o : POptions σ π ser ε} {init : σ} {w : PWorld σ ser ε}
    (st : StageVal π) (W1 : PWorld σ ser ε)
    (hhead : TRes.thenR false (TRes.thenR false
          (thenablify false (getItemStep B) (hydratePrologue w))
          (deserializeStep o)) (versionResolveStep o)
        = (W1, Except.ok (Thenable.ok st)))
    (hh1 : W1.hhTrace = w.hhTrace ++ [false])
    (hh2 : W1.cbCalls = w.cbCalls)
    (hh3 : W1.postEmits = w.postEmits)
    (hh4 : W1.preEmits = w.preEmits ++ [w.memState])
    (hh5 : W1.hasHydrated = false) :
    ∃ fin : PWorld σ ser ε,
      hydrate B o init w = (fin, Except.ok (Thenable.ok ()))
      ∧ fin.preEmits = w.preEmits ++ [w.memState]
      ∧ ((fin.hasHydrated = true
          ∧ fin.hhTrace = w.hhTrace ++ [false, true]
          ∧ (∃ s : σ, fin.memState = s ∧ fin.isfps = some s
             ∧ fin.cbCalls = w.cbCalls
                 ++ (if o.onRehydrateStorage then [(some s, none)] else [])
             ∧ fin.postEmits = w.postEmits ++ [some s]))
        ∨ (fin.hasHydrated = false
          ∧ fin.hhTrace = w.hhTrace ++ [false]
          ∧ (∃ e : ε, fin.cbCalls = w.cbCalls
               ++ (if o.onRehydrateStorage then [(none, some e)] else []))
          ∧ fin.postEmits = w.postEmits)) := by
  obtain ⟨fin, heq, hmem, hisfps, hlog, hpre, hrest⟩ :=
    hydrateTail_spec B o init st W1
  refine ⟨fin, (hydrate_factor hhead).trans heq, by simp [hpre, hh4], ?_⟩
  rcases hrest with ⟨h1, h2, h3, h4⟩ | ⟨e, h1, h2, h3, h4⟩
  · exact Or.inl ⟨h1, by simp [h2, hh1],
      ⟨o.merge st init, hmem, hisfps, by simp [h3, hh2], by simp [h4, hh3]⟩⟩
  · exact Or.inr ⟨by simp [h1, hh5], by simp [h2, hh1],
      ⟨e, by simp [h3, hh2]⟩, by simp [h4, hh3]⟩

/-- Outcome of `hydrate` once its head chain has computed to a rejection. -/
theorem hydrate_outcome_aux_rej {σ π ser ε : Type} {B : Backend ser ε}
    {o : POptions σ π ser ε} {init : σ} {w : PWorld σ ser ε}
    {e : ε} (W1 : PWorld σ ser ε)
    (hhead : TRes.thenR false (TRes.thenR false
          (thenablify false (getItemStep B) (hydratePrologue w))
          (deserializeStep o)) (versionResolveStep o)
        = (W1, Except.ok (Thenable.rejected e)))
    (hh1 : W1.hhTrace = w.hhTrace ++ [false])
    (hh2 : W1.cbCalls = w.cbCalls)
    (hh3 : W1.postEmits = w.postEmits)
    (hh4 : W1.preEmits = w.preEmits ++ [w.memState])
    (hh5 : W1.hasHydrated = false) :
    ∃ fin : PWorld σ ser ε,
      hydrate B o init w = (fin, Except.ok (Thenable.ok ()))
      ∧ fin.preEmits = w.preEmits ++ [w.memState]
      ∧ ((fin.hasHydrated = true
          ∧ fin.hhTrace = w.hhTrace ++ [false, true]
          ∧ (∃ s : σ, fin.memState = s ∧ fin.isfps = some s
             ∧ fin.cbCalls = w.cbCalls
                 ++ (if o.onRehydrateStorage then [(some s, none)] else [])
             ∧ fin.postEmits = w.postEmits ++ [some s]))
        ∨ (fin.hasHydrated = false
          ∧ fin.hhTrace = w.hhTrace ++ [false]
          ∧ (∃ e : ε, fin.cbCalls = w.cbCalls
               ++ (if o.onRehydrateStorage then [(none, some e)] else []))
          ∧ fin.postEmits = w.postEmits)) := by
  refine ⟨_, hydrate_factor_rej hhead, ?_,
      Or.inr ⟨?_, ?_, ⟨e, ?_⟩, ?_⟩⟩ <;>
    by_cases hcb : o.onRehydrateStorage <;>
      simp [hcb, hh1, hh2, hh3, hh4, hh5]


/-- Every `hydrate` pass settles synchronously with an ok thenable, emits the
pre-hydration listeners once, and ends in exactly one of the two terminal
shapes: success (flag set, one true transition, success callback, post
emission of the merged state) or failure (flag false, no true transition,
failure callback, no post emission). -/
theorem hydrate_outcome {σ π ser ε : Type} (B : Backend ser ε)
    (o : POptions σ π ser ε) (init : σ) (w : PWorld σ ser ε) :
    ∃ fin : PWorld σ ser ε,
      hydrate B o init w = (fin, Except.ok (Thenable.ok ()))
      ∧ fin.preEmits = w.preEmits ++ [w.memState]
      ∧ ((fin.hasHydrated = true
          ∧ fin.hhTrace = w.hhTrace ++ [false, true]
          ∧ (∃ s : σ, fin.memState = s ∧ fin.isfps = some s
             ∧ fin.cbCalls = w.cbCalls
                 ++ (if o.onRehydrateStorage then [(some s, none)] else [])
             ∧ fin.postEmits = w.postEmits ++ [some s]))
        ∨ (fin.hasHydrated = false
          ∧ fin.hhTrace = w.hhTrace ++ [false]
          ∧ (∃ e : ε, fin.cbCalls = w.cbCalls
               ++ (if o.onRehydrateStorage then [(none, some e)] else []))
          ∧ fin.postEmits = w.postEmits)) := by
  rcases hgi : B.getItem w.storage with e | s?
  · -- stage 2 throws
    refine hydrate_outcome_aux_rej (w := w) (e := e) (hydratePrologue w)
        ?_ (by simp [hydratePrologue]) (by simp [hydratePrologue])
        (by simp [hydratePrologue]) (by simp [hydratePrologue])
        (by simp [hydratePrologue])
    rw [thenablify_res_err_false
      (show getItemStep B (hydratePrologue w)
        = (hydratePrologue w, Except.error e) by
          simp [getItemStep, hydratePrologue, hgi]),
      thenR_rej, thenR_rej]
  · have hget : thenablify false (getItemStep B) (hydratePrologue w)
        = (hydratePrologue w, Except.ok (Thenable.ok s?)) :=
      thenablify_res_ok (by simp [getItemStep, hydratePrologue, hgi])
    rcases s? with _ | s
    · -- storage empty: null propagates to the merge stage
      refine hydrate_outcome_aux (w := w) StageVal.jnull (hydratePrologue w)
          ?_ (by simp [hydratePrologue]) (by simp [hydratePrologue])
          (by simp [hydratePrologue]) (by simp [hydratePrologue])
          (by simp [hydratePrologue])
      rw [hget, thenR_ok, thenablify_res_ok
        (show deserializeStep o none (hydratePrologue w)
          = (hydratePrologue w, Except.ok none) from rfl), thenR_ok,
        thenablify_res_ok (show versionResolveStep o none (hydratePrologue w)
          = (hydratePrologue w, Except.ok StageVal.jnull) from rfl)]
    · rcases hdes : o.deserialize s with e | sv
      · -- deserialization throws
        refine hydrate_outcome_aux_rej (w := w) (e := e) (hydratePrologue w)
            ?_ (by simp [hydratePrologue]) (by simp [hydratePrologue])
            (by simp [hydratePrologue]) (by simp [hydratePrologue])
            (by simp [hydratePrologue])
        rw [hget, thenR_ok, thenablify_res_err_false
          (show deserializeStep o (some s) (hydratePrologue w)
            = (hydratePrologue w, Except.error e) by
              simp [deserializeStep, hdes, Except.map]), thenR_rej]
      · rcases hv : sv.version with _ | v
        · -- legacy envelope without version: state passes unchanged
          refine hydrate_outcome_aux (w := w) (StageVal.jstate sv.state) (hydratePrologue w)
              ?_ (by simp [hydratePrologue]) (by simp [hydratePrologue])
              (by simp [hydratePrologue]) (by simp [hydratePrologue])
              (by simp [hydratePrologue])
          rw [hget, thenR_ok, thenablify_res_ok
            (show deserializeStep o (some s) (hydratePrologue w)
              = (hydratePrologue w, Except.ok (some sv)) by
                simp [deserializeStep, hdes, Except.map]), thenR_ok,
            thenablify_res_ok
              (show versionResolveStep o (some sv) (hydratePrologue w)
                = (hydratePrologue w, Except.ok (StageVal.jstate sv.state)) by
                  simp [versionResolveStep, hv])]
        · by_cases hveq : v = o.version
          · -- version strictly equal: state passes unchanged
            refine hydrate_outcome_aux (w := w) (StageVal.jstate sv.state) (hydratePrologue w)
                ?_ (by simp [hydratePrologue]) (by simp [hydratePrologue])
                (by simp [hydratePrologue]) (by simp [hydratePrologue])
                (by simp [hydratePrologue])
            rw [hget, thenR_ok, thenablify_res_ok
              (show deserializeStep o (some s) (hydratePrologue w)
                = (hydratePrologue w, Except.ok (some sv)) by
                  simp [deserializeStep, hdes, Except.map]), thenR_ok,
              thenablify_res_ok
                (show versionResolveStep o (some sv) (hydratePrologue w)
                  = (hydratePrologue w, Except.ok (StageVal.jstate sv.state)) by
                    simp [versionResolveStep, hv, hveq])]
          · rcases hm : o.migrate with _ | m
            · -- mismatch without migrator: diagnostic, undefined result
              refine hydrate_outcome_aux (w := w) StageVal.jundef
                  { hydratePrologue w with
                      log := (hydratePrologue w).log
                        ++ [Diag.errCouldNotMigrate] }
                  ?_ (by simp [hydratePrologue]) (by simp [hydratePrologue])
                  (by simp [hydratePrologue]) (by simp [hydratePrologue])
                  (by simp [hydratePrologue])
              rw [hget, thenR_ok, thenablify_res_ok
                (show deserializeStep o (some s) (hydratePrologue w)
                  = (hydratePrologue w, Except.ok (some sv)) by
                    simp [deserializeStep, hdes, Except.map]), thenR_ok,
                thenablify_res_ok
                  (show versionResolveStep o (some sv) (hydratePrologue w)
                    = ({ hydratePrologue w with
                          log := (hydratePrologue w).log
                            ++ [Diag.errCouldNotMigrate] }
                      , Except.ok StageVal.jundef) by
                      simp [versionResolveStep, hv, hveq, hm])]
            · rcases hmig : m sv.state v with e | ms
              · -- migration throws
                refine hydrate_outcome_aux_rej (w := w) (e := e) (hydratePrologue w)
                    ?_ (by simp [hydratePrologue]) (by simp [hydratePrologue])
                    (by simp [hydratePrologue]) (by simp [hydratePrologue])
                    (by simp [hydratePrologue])
                rw [hget, thenR_ok, thenablify_res_ok
                  (show deserializeStep o (some s) (hydratePrologue w)
                    = (hydratePrologue w, Except.ok (some sv)) by
                      simp [deserializeStep, hdes, Except.map]), thenR_ok,
                  thenablify_res_err_false
                    (show versionResolveStep o (some sv) (hydratePrologue w)
                      = (hydratePrologue w, Except.error e) by
                        simp [versionResolveStep, hv, hveq, hm, hmig,
                          Except.map])]
              · -- migration supplies the state
                refine hydrate_outcome_aux (w := w) (StageVal.jstate ms) (hydratePrologue w)
                    ?_ (by simp [hydratePrologue]) (by simp [hydratePrologue])
                    (by simp [hydratePrologue]) (by simp [hydratePrologue])
                    (by simp [hydratePrologue])
                rw [hget, thenR_ok, thenablify_res_ok
                  (show deserializeStep o (some s) (hydratePrologue w)
                    = (hydratePrologue w, Except.ok (some sv)) by
                      simp [deserializeStep, hdes, Except.map]), thenR_ok,
                  thenablify_res_ok
                    (show versionResolveStep o (some sv) (hydratePrologue w)
                      = (hydratePrologue w, Except.ok (StageVal.jstate ms)) by
                        simp [versionResolveStep, hv, hveq, hm, hmig,
                          Except.map])]

/-- C5: for every function wrapped by `thenablify`, a throw in default mode
produces a rejected thenable: every subsequently chained `then` stage is
skipped (singly and along any chain) and the first chained `catch` handler
receives the thrown error; a throw in throw-immediately mode is rethrown
synchronously to the invoker; and a chain with no pending error passes
through `catch` stages as a no-op. -/
theorem thenablify_error_contract {W ε α : Type} (f : Eff W ε α) (w w' : W)
    (e : ε) (hf : f w = (w', Except.error e)) :
    thenablify false f w = (w', Except.ok (Thenable.rejected e))
    ∧ thenablify true f w = (w', Except.error e)
    ∧ (∀ (β : Type) (m : Bool) (g : α → Eff W ε β) (w₀ : W),
        Thenable.thenT m (Thenable.rejected e) g w₀
          = (w₀, Except.ok (Thenable.rejected e)))
    ∧ (∀ (m : Bool) (gs : List (α → Eff W ε α)) (w₀ : W),
        gs.foldl (fun r g => TRes.thenR m r g)
            ((w₀, Except.ok (Thenable.rejected e)) : TRes W ε α)
          = (w₀, Except.ok (Thenable.rejected e)))
    ∧ (∀ (m : Bool) (h : ε → Eff W ε α) (w₀ : W),
        Thenable.catchT m (Thenable.rejected e) h w₀ = thenablify m (h e) w₀)
    ∧ (∀ (m : Bool) (v : α) (h : ε → Eff W ε α) (w₀ : W),
        Thenable.catchT m (Thenable.ok v) h w₀
          = (w₀, Except.ok (Thenable.ok v))) := by
  refine ⟨thenablify_res_err_false hf, thenablify_res_err_true hf,
    fun β m g w₀ => rfl, ?_, fun m h w₀ => rfl, fun m v h w₀ => rfl⟩
  intro m gs w₀
  induction gs with
  | nil => rfl
  | cons g gs ih => simpa [thenR_rej] using ih

/-- C5 witness: the contract at a concrete throwing function. -/
theorem thenablify_error_contract_witness :
    thenablify false
        ((fun n => (n + 1, Except.error "boom")) : Eff Nat String Int) 0
      = (1, Except.ok (Thenable.rejected "boom"))
    ∧ thenablify true
        ((fun n => (n + 1, Except.error "boom")) : Eff Nat String Int) 0
      = (1, Except.error "boom")
    ∧ Thenable.catchT false (Thenable.rejected "boom")
        ((fun _ n => (n, Except.ok (2 : Int))) : String → Eff Nat String Int) 5
      = thenablify false
          (((fun _ n => (n, Except.ok (2 : Int))) :
            String → Eff Nat String Int) "boom") 5 := by
  have h := thenablify_error_contract
    ((fun n => (n + 1, Except.error "boom")) : Eff Nat String Int) 0 1 "boom" rfl
  exact ⟨h.1, h.2.1, h.2.2.2.2.1 false _ 5⟩

/-- C6: `then` on a thenable holding a realized (non-promise-like) value
invokes the handler synchronously and wraps its result; consequently every
hydration pass over a synchronous backend settles before `hydrate` returns
(the returned thenable is already ok), and in the concrete all-synchronous
scenario the pass has completed (`hasHydrated` already true on return). -/
theorem then_synchronous_invocation :
    (∀ (W ε α β : Type) (m : Bool) (v : α) (g : α → Eff W ε β) (w : W),
        Thenable.thenT m (Thenable.ok v) g w = thenablify m (g v) w)
    ∧ (∀ (σ π ser ε : Type) (B : Backend ser ε) (o : POptions σ π ser ε)
        (init : σ) (w : PWorld σ ser ε),
        (hydrate B o init w).2 = Except.ok (Thenable.ok ()))
    ∧ ((hydrate syncBackend baseOptions [("count", 0)]
        (mkWorld [("count", 0)] none)).1).hasHydrated = true := by
  refine ⟨fun W ε α β m v g w => rfl, ?_, by decide⟩
  intro σ π ser ε B o init w
  obtain ⟨fin, heq, _⟩ := hydrate_outcome B o init w
  rw [heq]

/-- C8: with synchronous storage holding no entry, target version 0 and
otherwise default options, `rehydrate()` resolves (ok thenable) with
`hasHydrated` true, the in-memory state value-equal to its pre-hydration
value, and storage containing the envelope of that state at version 0. -/
theorem hydrate_empty_storage_scenario :
    (hydrate syncBackend baseOptions [("count", 0)]
        (mkWorld [("count", 0)] none)).2 = Except.ok (Thenable.ok ())
    ∧ ((hydrate syncBackend baseOptions [("count", 0)]
        (mkWorld [("count", 0)] none)).1).hasHydrated = true
    ∧ ((hydrate syncBackend baseOptions [("count", 0)]
        (mkWorld [("count", 0)] none)).1).memState
      = (mkWorld [("count", 0)] none).memState
    ∧ ((hydrate syncBackend baseOptions [("count", 0)]
        (mkWorld [("count", 0)] none)).1).storage
      = some { state := [("count", 0)], version := some 0 } := by
  exact ⟨by decide, by decide, by decide, by decide⟩

/-- C3: when the storage provider throws at construction or yields no
handle, resolution produces no storage handle, and the installed `setState`
of the resulting no-op persistence mode still updates the in-memory state,
logs a warning-class diagnostic on every attempted write, and never
returns an error. -/
theorem storage_unavailable_contract {σ π ser ε H : Type} :
    (∀ e : ε, resolvePersistentStorage (Except.error e) = (none : Option H))
    ∧ resolvePersistentStorage (Except.ok none : Except ε (Option H)) = none
    ∧ (∀ (o : POptions σ π ser ε) (upd : σ → σ) (w : PWorld σ ser ε),
        installedSetState none o upd w
          = ({ w with log := w.log ++ [Diag.warnNoPersistentStorage o.name]
                    , memState := upd w.memState }, Except.ok ())) :=
  ⟨fun _ => rfl, rfl, fun _ _ _ => rfl⟩

/-- C7 counterexample: a completed `rehydrate()` pass whose deserializer
throws performs no false-to-true transition at all: the flag trace of the
pass is `[false]` and the flag ends false, refuting "transitions false to
true exactly once per call". -/
theorem hydration_flag_counterexample :
    midSessionWorld.hasHydrated = true
    ∧ (hydrate syncBackend badDeserializeOptions [("count", 0)]
        midSessionWorld).2 = Except.ok (Thenable.ok ())
    ∧ ((hydrate syncBackend badDeserializeOptions [("count", 0)]
        midSessionWorld).1).hhTrace = [false]
    ∧ ((hydrate syncBackend badDeserializeOptions [("count", 0)]
        midSessionWorld).1).hasHydrated = false := by
  exact ⟨by decide, by decide, by decide, by decide⟩

/-- C7 amended: every `rehydrate()` pass first resets `hasHydrated` to
false; it then transitions it to true exactly once when the pass succeeds
and not at all when the pass fails (the flag trace of the pass is `[false]`
followed by `[true]` exactly when the pass ends hydrated). -/
theorem hydration_flag_trace {σ π ser ε : Type} (B : Backend ser ε)
    (o : POptions σ π ser ε) (init : σ) (w : PWorld σ ser ε) :
    ((hydrate B o init w).1).hhTrace
      = w.hhTrace ++ [false]
        ++ (if ((hydrate B o init w).1).hasHydrated then [true] else []) := by
  obtain ⟨fin, heq, hpre, hout⟩ := hydrate_outcome B o init w
  rw [heq]
  rcases hout with ⟨h1, h2, _⟩ | ⟨h1, h2, _⟩ <;> simp [h1, h2]

/-- C1 counterexample: a `rehydrate()` pass hitting the no-migrator branch
while the in-memory state has drifted from the captured initial state does
not leave the state at its pre-hydration value: the default merge of
`undefined` is computed against the initial state, so the store is reset to
it. -/
theorem version_mismatch_reset_counterexample :
    driftWorld.memState = [("count", 5)]
    ∧ baseOptions.migrate = none
    ∧ driftWorld.storage = some { state := [("count", 5)], version := some 1 }
    ∧ baseOptions.version = 0
    ∧ ((hydrate syncBackend baseOptions [("count", 0)] driftWorld).1).memState
      = [("count", 0)]
    ∧ ((hydrate syncBackend baseOptions [("count", 0)] driftWorld).1).memState
      ≠ driftWorld.memState := by
  exact ⟨rfl, rfl, rfl, rfl, by decide, by decide⟩

/-- C1 amended: version resolution passes `Envelope.state` unchanged when the
envelope is unversioned or its version strictly equals the target; with a
version mismatch and a configured `migrate`, `migrate(Envelope.state,
Envelope.version)` supplies the state; with a mismatch and no `migrate`, an
error-class diagnostic is logged and the merge stage receives `undefined`,
the pipeline still reaching stage 5 — which sets the store to
`merge(undefined, initialState)` (the captured initial state under the
default merge; this equals the pre-hydration value only when that value is
the initial state). -/
theorem version_resolution_contract {σ π ser ε : Type}
    (o : POptions σ π ser ε) :
    (∀ (sv : PersistentStorageValue π) (w : PWorld σ ser ε),
        sv.version = none →
        versionResolveStep o (some sv) w
          = (w, Except.ok (StageVal.jstate sv.state)))
    ∧ (∀ (sv : PersistentStorageValue π) (w : PWorld σ ser ε) (v : Int),
        sv.version = some v → v = o.version →
        versionResolveStep o (some sv) w
          = (w, Except.ok (StageVal.jstate sv.state)))
    ∧ (∀ (sv : PersistentStorageValue π) (w : PWorld σ ser ε) (v : Int)
        (m : π → Int → Except ε π),
        sv.version = some v → v ≠ o.version → o.migrate = some m →
        versionResolveStep o (some sv) w
          = (w, Except.map StageVal.jstate (m sv.state v)))
    ∧ (∀ (sv : PersistentStorageValue π) (w : PWorld σ ser ε) (v : Int),
        sv.version = some v → v ≠ o.version → o.migrate = none →
        versionResolveStep o (some sv) w
          = ({ w with log := w.log ++ [Diag.errCouldNotMigrate] }
            , Except.ok StageVal.jundef))
    ∧ (∀ (B : Backend ser ε) (init : σ) (w : PWorld σ ser ε) (s : ser)
        (sv : PersistentStorageValue π) (v : Int),
        B.getItem w.storage = Except.ok (some s) →
        o.deserialize s = Except.ok sv →
        sv.version = some v → v ≠ o.version → o.migrate = none →
        ((hydrate B o init w).1).memState = o.merge StageVal.jundef init
        ∧ ((hydrate B o init w).1).isfps = some (o.merge StageVal.jundef init)
        ∧ Diag.errCouldNotMigrate ∈ ((hydrate B o init w).1).log
        ∧ (hydrate B o init w).2 = Except.ok (Thenable.ok ())) := by
  refine ⟨?_, ?_, ?_, ?_, ?_⟩
  · intro sv w hv
    simp [versionResolveStep, hv]
  · intro sv w v hv hveq
    simp [versionResolveStep, hv, hveq]
  · intro sv w v m hv hveq hm
    simp [versionResolveStep, hv, hveq, hm]
  · intro sv w v hv hveq hm
    simp [versionResolveStep, hv, hveq, hm]
  · intro B init w s sv v hgi hdes hv hveq hm
    have hhead : TRes.thenR false (TRes.thenR false
          (thenablify false (getItemStep B) (hydratePrologue w))
          (deserializeStep o)) (versionResolveStep o)
        = ({ hydratePrologue w with
              log := (hydratePrologue w).log ++ [Diag.errCouldNotMigrate] }
          , Except.ok (Thenable.ok StageVal.jundef)) := by
      rw [thenablify_res_ok (show getItemStep B (hydratePrologue w)
            = (hydratePrologue w, Except.ok (some s)) by
              simp [getItemStep, hydratePrologue, hgi]),
        thenR_ok,
        thenablify_res_ok (show deserializeStep o (some s) (hydratePrologue w)
            = (hydratePrologue w, Except.ok (some sv)) by
              simp [deserializeStep, hdes, Except.map]),
        thenR_ok,
        thenablify_res_ok (show versionResolveStep o (some sv) (hydratePrologue w)
            = ({ hydratePrologue w with
                  log := (hydratePrologue w).log ++ [Diag.errCouldNotMigrate] }
              , Except.ok StageVal.jundef) by
              simp [versionResolveStep, hv, hveq, hm])]
    obtain ⟨fin, heq, hmem, hisfps, hlog, hpre, hrest⟩ :=
      hydrateTail_spec B o init StageVal.jundef
        { hydratePrologue w with
            log := (hydratePrologue w).log ++ [Diag.errCouldNotMigrate] }
    rw [hydrate_factor hhead, heq]
    refine ⟨hmem, hisfps, ?_, rfl⟩
    rw [hlog]
    simp [hydratePrologue]

/-- C1 witness: the no-migrator branch and the stage-5 reset at concrete
inputs. -/
theorem version_resolution_contract_witness :
    versionResolveStep baseOptions
        (some { state := [("count", 5)], version := some 1 })
        (mkWorld [("count", 0)] none)
      = ({ mkWorld [("count", 0)] none with
            log := (mkWorld [("count", 0)] none).log
              ++ [Diag.errCouldNotMigrate] }, Except.ok StageVal.jundef)
    ∧ ((hydrate syncBackend baseOptions [("count", 0)] driftWorld).1).memState
      = baseOptions.merge StageVal.jundef [("count", 0)] := by
  have h := version_resolution_contract (o := baseOptions)
  exact ⟨h.2.2.2.1 _ _ 1 rfl (by decide) rfl,
    (h.2.2.2.2 syncBackend [("count", 0)] driftWorld
      { state := [("count", 5)], version := some 1 }
      { state := [("count", 5)], version := some 1 } 1 rfl rfl rfl
      (by decide) rfl).1⟩

/-- C2: the wrapped `setState` first updates the in-memory state, then
writes the serialization of the envelope of the partialized current state at
the configured version to storage; a serialization or storage-write failure
is not caught locally but propagates to the invoker (throw-immediately
mode), with the in-memory update already applied. -/
theorem wrapped_set_contract {σ π ser ε : Type} (B : Backend ser ε)
    (o : POptions σ π ser ε) (upd : σ → σ) (w : PWorld σ ser ε) :
    (∀ (s : ser) (c : Option ser),
      o.serialize { state := o.partialize (upd w.memState)
                  , version := some o.version } = Except.ok s →
      B.setItem s w.storage = Except.ok c →
      wrappedSetState B o upd w
        = ({ w with memState := upd w.memState, storage := c }, Except.ok ()))
    ∧ (∀ e : ε,
      o.serialize { state := o.partialize (upd w.memState)
                  , version := some o.version } = Except.error e →
      wrappedSetState B o upd w
        = ({ w with memState := upd w.memState }, Except.error e))
    ∧ (∀ (s : ser) (e : ε),
      o.serialize { state := o.partialize (upd w.memState)
                  , version := some o.version } = Except.ok s →
      B.setItem s w.storage = Except.error e →
      wrappedSetState B o upd w
        = ({ w with memState := upd w.memState }, Except.error e)) := by
  refine ⟨?_, ?_, ?_⟩
  · intro s c hs hc
    simp [wrappedSetState, updatePersistentStorage, serializeStep, setItemStep,
      thenablify, TRes.thenR, Thenable.thenT, TRes.settle, hs, hc]
  · intro e hs
    simp [wrappedSetState, updatePersistentStorage, serializeStep,
      thenablify, TRes.thenR, TRes.settle, hs]
  · intro s e hs hc
    simp [wrappedSetState, updatePersistentStorage, serializeStep, setItemStep,
      thenablify, TRes.thenR, Thenable.thenT, TRes.settle, hs, hc]

/-- C2 witness: a concrete persisted `setState` call writes the envelope of
the new state at version 0. -/
theorem wrapped_set_contract_witness :
    wrappedSetState syncBackend baseOptions (fun _ => [("count", 7)])
        (mkWorld [("count", 0)] none)
      = ({ mkWorld [("count", 0)] none with
            memState := [("count", 7)]
          , storage := some { state := [("count", 7)], version := some 0 } }
        , Except.ok ()) :=
  (wrapped_set_contract syncBackend baseOptions _ _).1
    { state := [("count", 7)], version := some 0 }
    (some { state := [("count", 7)], version := some 0 }) rfl rfl

/-- C4: when `onRehydrateStorage` returned a callback, every `rehydrate()`
pass settles without throwing to the caller, and either succeeds — flag set,
post-hydration emission of the merged state, callback invoked with
`(mergedState, undefined)` — or fails, with the callback invoked with
`(undefined, error)` and no post-hydration emission. -/
theorem rehydrate_callback_routing {σ π ser ε : Type} (B : Backend ser ε)
    (o : POptions σ π ser ε) (init : σ) (w : PWorld σ ser ε)
    (hcb : o.onRehydrateStorage = true) :
    (hydrate B o init w).2 = Except.ok (Thenable.ok ())
    ∧ ((((hydrate B o init w).1).hasHydrated = true
        ∧ (∃ s : σ, ((hydrate B o init w).1).isfps = some s
           ∧ ((hydrate B o init w).1).memState = s
           ∧ ((hydrate B o init w).1).cbCalls = w.cbCalls ++ [(some s, none)]
           ∧ ((hydrate B o init w).1).postEmits = w.postEmits ++ [some s]))
      ∨ (((hydrate B o init w).1).hasHydrated = false
        ∧ (∃ e : ε, ((hydrate B o init w).1).cbCalls
            = w.cbCalls ++ [(none, some e)])
        ∧ ((hydrate B o init w).1).postEmits = w.postEmits)) := by
  obtain ⟨fin, heq, hpre, hout⟩ := hydrate_outcome B o init w
  rw [heq]
  refine ⟨rfl, ?_⟩
  rcases hout with ⟨h1, h2, s, hs1, hs2, hs3, hs4⟩ | ⟨h1, h2, ⟨e, he⟩, h4⟩
  · exact Or.inl ⟨h1, ⟨s, hs2, hs1, by simpa [hcb] using hs3,
      by simpa [hcb] using hs4⟩⟩
  · exact Or.inr ⟨h1, ⟨e, by simpa [hcb] using he⟩, h4⟩

/-- C4 witness: the routing contract at a concrete hook-bearing store. -/
theorem rehydrate_callback_routing_witness :
    cbOptions.onRehydrateStorage = true
    ∧ ((hydrate syncBackend cbOptions [("count", 0)]
          (mkWorld [("count", 0)] none)).2 = Except.ok (Thenable.ok ())
      ∧ ((((hydrate syncBackend cbOptions [("count", 0)]
            (mkWorld [("count", 0)] none)).1).hasHydrated = true
          ∧ (∃ s : Obj, ((hydrate syncBackend cbOptions [("count", 0)]
              (mkWorld [("count", 0)] none)).1).isfps = some s
             ∧ ((hydrate syncBackend cbOptions [("count", 0)]
                (mkWorld [("count", 0)] none)).1).memState = s
             ∧ ((hydrate syncBackend cbOptions [("count", 0)]
                (mkWorld [("count", 0)] none)).1).cbCalls
                = (mkWorld [("count", 0)] none).cbCalls ++ [(some s, none)]
             ∧ ((hydrate syncBackend cbOptions [("count", 0)]
                (mkWorld [("count", 0)] none)).1).postEmits
                = (mkWorld [("count", 0)] none).postEmits ++ [some s]))
        ∨ (((hydrate syncBackend cbOptions [("count", 0)]
              (mkWorld [("count", 0)] none)).1).hasHydrated = false
          ∧ (∃ e : String, ((hydrate syncBackend cbOptions [("count", 0)]
              (mkWorld [("count", 0)] none)).1).cbCalls
              = (mkWorld [("count", 0)] none).cbCalls ++ [(none, some e)])
          ∧ ((hydrate syncBackend cbOptions [("count", 0)]
              (mkWorld [("count", 0)] none)).1).postEmits
              = (mkWorld [("count", 0)] none).postEmits))) :=
  ⟨rfl, rehydrate_callback_routing syncBackend cbOptions [("count", 0)]
    (mkWorld [("count", 0)] none) rfl⟩

/-- C9 counterexample: `setOptions` with a patch that supplies no
`getStorage` still invokes the (merged) storage-provider function again,
refuting "re-resolved if and only if newOptions supplies a new getStorage
function". -/
theorem setOptions_reresolve_counterexample :
    versionOnlyPatch.getStorage = none
    ∧ (setOptions presentProviderOpts versionOnlyPatch
        constructionResolveWorld).2.providerCalls
      = constructionResolveWorld.providerCalls + 1
    ∧ (setOptions presentProviderOpts versionOnlyPatch
        constructionResolveWorld).2.providerCalls
      ≠ constructionResolveWorld.providerCalls := by
  exact ⟨rfl, rfl, by decide⟩

/-- C9 amended: `setOptions` shallow-merges the patch into the options
record and then re-resolves the storage handle (invoking the provider
again) whenever the merged options carry a provider — on every call with a
truthy `getStorage`, not only when the patch supplies one; the handle is
left untouched only when the merged options carry none. -/
theorem setOptions_contract (opts : StorageOpts) (patch : OptsPatch)
    (w : ResolveWorld) :
    (setOptions opts patch w).1
      = { getStorage := patch.getStorage.getD opts.getStorage
        , version := patch.version.getD opts.version }
    ∧ (∀ p : Nat, patch.getStorage.getD opts.getStorage = some p →
        (setOptions opts patch w).2
          = { providerCalls := w.providerCalls + 1, handle := some p })
    ∧ (patch.getStorage.getD opts.getStorage = none →
        (setOptions opts patch w).2 = w) := by
  refine ⟨?_, ?_, ?_⟩
  · rcases hg : patch.getStorage.getD opts.getStorage with _ | p <;>
      simp [setOptions, hg]
  · intro p hp
    simp [setOptions, hp]
  · intro hn
    simp [setOptions, hn]

/-- C9 witness: the amended contract at a patch that does supply a provider. -/
theorem setOptions_contract_witness :
    (setOptions presentProviderOpts providerPatch constructionResolveWorld).2
      = { providerCalls := 2, handle := some 9 } :=
  ((setOptions_contract presentProviderOpts providerPatch
    constructionResolveWorld).2.1 9 rfl).trans (by decide)

/-- C10 counterexample: at the key `k` literally named "k", the
context-store variant's `update` does change `t[k]`, refuting the
universally quantified claim. -/
theorem ctx_update_counterexample :
    CtxVariant.update [("k", (0 : Int))] "k" (fun v => v.getD 0 + 1)
      = [("k", (1 : Int))]
    ∧ objGet (CtxVariant.update [("k", (0 : Int))] "k"
        (fun v => v.getD 0 + 1)) "k"
      ≠ objGet [("k", (0 : Int))] "k" := by
  exact ⟨by decide, by decide⟩

/-- C10 amended: for every key other than the literal "k", the context-store
variant's `update` leaves `t[k]` unchanged and stores the replaced value
under "k"; hence the store handle's `setState` is not wrapped there and
writes through it leave storage untouched — unlike the mutator-chain
variant, whose `update` replaces `t[k]` with the wrapped function, whose
writes persist the envelope of the updated state. -/
theorem ctx_update_contract :
    (∀ (V : Type) (t : List (String × V)) (k : String) (r : Option V → V),
        k ≠ "k" →
        objGet (CtxVariant.update t k r) k = objGet t k
        ∧ objGet (CtxVariant.update t k r) "k" = some (r (objGet t k)))
    ∧ (∀ (V : Type) (t : List (String × V)) (k : String) (r : Option V → V),
        objGet (MutatorVariant.update t k r) k = some (r (objGet t k)))
    ∧ objGet (CtxVariant.update parentStoreObj "setState"
        (persistWrap syncBackend baseOptions)) "setState" = some plainSetState
    ∧ (∀ (upd : Obj → Obj) (w : PWorld Obj EnvObj String),
        ((plainSetState upd w).1).storage = w.storage
        ∧ (plainSetState upd w).2 = Except.ok ())
    ∧ objGet (MutatorVariant.update parentStoreObj "setState"
        (persistWrap syncBackend baseOptions)) "setState"
      = some (persistWrap syncBackend baseOptions (some plainSetState))
    ∧ (∀ (upd : Obj → Obj) (w : PWorld Obj EnvObj String),
        ((persistWrap syncBackend baseOptions (some plainSetState) upd w).1).storage
          = some { state := upd w.memState, version := some 0 }) := by
  refine ⟨?_, ?_, rfl, fun upd w => ⟨rfl, rfl⟩, rfl, fun upd w => rfl⟩
  · intro V t k r hk
    exact ⟨objGet_setKey_other t "k" k _ hk, objGet_setKey_same t "k" _⟩
  · intro V t k r
    exact objGet_setKey_same t k _

/-- C10 witness: the amended contract at the real call site key. -/
theorem ctx_update_contract_witness :
    (("setState" : String) ≠ "k")
    ∧ objGet (CtxVariant.update parentStoreObj "setState"
        (persistWrap syncBackend baseOptions)) "setState"
      = objGet parentStoreObj "setState" := by
  refine ⟨by decide, ?_⟩
  exact (ctx_update_contract.1 SetFn parentStoreObj "setState"
    (persistWrap syncBackend baseOptions) (by decide)).1

end PersistMW
